import Mathlib

/-!
# Verification of the SPM5-Flask GitHub-statistics pipeline (`src/app.py`)

Shallow embedding of the pure data-processing core of `app.py`:

* calendar dates and `dateutil.relativedelta(months=-1)` arithmetic,
* the 12-month window-walking loops of `fetch_github_data` /
  `fetch_github_commits`,
* the monthly bucketing performed by `format_commits_data`,
  `format_branches_data`, `format_contributors_data`, `format_pulls_data`
  and `format_github_data` (pandas `to_period('m')` / `groupby` /
  `reindex(period_range(min,max), fill_value=0)`),
* contributor deduplication in `fetch_github_contributors`,
* both pagination loops (offset-paginated REST search and cursor-paginated
  GraphQL), with page payloads supplied as explicit inputs in place of the
  network oracle,
* the per-kind forecast-call error handling and response assembly of the
  `/api/github` handler.

Machine-level concerns (HTTP transport, JSON encoding, header plumbing) are
external collaborators and are not part of the embedding; a page response or
forecast outcome is an explicit datum.  A Python exception raised while
processing a datum is modelled by an explicit `bad` constructor / `Except`
error, and pandas `Period('m')` values are modelled by their month ordinal
`year * 12 + (month - 1)` (periods compare and step by exactly this ordinal;
rendering as "YYYY-MM" is presentation only).
-/

namespace SPM5

/-- A calendar date, as produced by `datetime.date(year, month, day)`.
Fields are `Nat`s; validity (`1 ≤ month ≤ 12`, `1 ≤ day ≤ daysInMonth`) is
not baked into the type, mirroring Python where `date` construction checks it
dynamically. -/
structure Date where
  year : Nat
  month : Nat
  day : Nat
deriving DecidableEq, Repr

/-- Gregorian leap-year test (`calendar.isleap` semantics, as used by
`dateutil` when clamping a day to the target month's length). -/
def isLeapYear (y : Nat) : Bool :=
  (y % 4 == 0 && y % 100 != 0) || y % 400 == 0

/-- Number of days of month `m` of year `y` (Gregorian). -/
def daysInMonth (y m : Nat) : Nat :=
  if m = 2 then (if isLeapYear y then 29 else 28)
  else if m = 4 ∨ m = 6 ∨ m = 9 ∨ m = 11 then 30
  else 31

/-- Python `d + dateutil.relativedelta.relativedelta(months=-1)`: step back one
calendar month and clamp the day to the length of the target month (so
2021-03-31 becomes 2021-02-28, never an invalid date). -/
def minusOneMonth (d : Date) : Date :=
  let y := if d.month = 1 then d.year - 1 else d.year
  let m := if d.month = 1 then 12 else d.month - 1
  { year := y, month := m, day := min d.day (daysInMonth y m) }

/-- The window-walking loop shared by `fetch_github_data` (lines 804–897) and
`fetch_github_commits` (lines 77–177): each iteration sets
`last_month = today + relativedelta(months=-1)`, queries the range
`last_month .. today`, then re-anchors `today = last_month`.  A window is the
pair `(start, end) = (last_month, today)`, most recent first. -/
def windowsFrom : Date → Nat → List (Date × Date)
  | _, 0 => []
  | today, Nat.succ n =>
    let lastMonth := minusOneMonth today
    (lastMonth, today) :: windowsFrom lastMonth n

/-- The month ordinal of a pandas `Period('m')` holding this date:
`to_period('m')` buckets a timestamp by `(year, month)`, and periods are
linearly ordered / stepped by `year * 12 + (month - 1)`. -/
def monthIdx (d : Date) : Nat := d.year * 12 + (d.month - 1)

/-- The monthly-bucketing pipeline shared verbatim by `format_commits_data`
(lines 184–202), `format_branches_data`, `format_contributors_data`,
`format_pulls_data` and both halves of `format_github_data`:

    s = pd.to_datetime(pd.Series(dates), format='%Y-%m-%d')
    s.index = s.dt.to_period('m'); s = s.groupby(level=0).size()
    s = s.reindex(pd.period_range(s.index.min(), s.index.max(), freq='m'),
                  fill_value=0)

i.e. count occurrences per month, then reindex over every month from the
minimum to the maximum projected month, filling absent months with 0, in
ascending month order.  On the empty series pandas would raise on
`min()`/`max()`; every caller short-circuits before that, and this embedding
returns `[]` (reachable only through those short-circuits). -/
def aggregateMonths (dates : List Date) : List (Nat × Nat) :=
  match dates.map monthIdx with
  | [] => []
  | m :: ms =>
    let lo := ms.foldl Nat.min m
    let hi := ms.foldl Nat.max m
    (List.range (hi + 1 - lo)).map (fun i => (lo + i, (m :: ms).count (lo + i)))

/-- A commit record as built by `fetch_github_commits` (lines 155–167).
`committed_at` is `committedDate[:10]`, the calendar-day part of the upstream
timestamp, modelled directly as a `Date`. -/
structure CommitRec where
  commit_hash : String
  committed_at : Date
  message : String
  author_name : String
  author_email : String
  author_login : String
deriving DecidableEq, Repr

/-- Embedding of `format_commits_data` (lines 184–202): `[]` on an empty frame, otherwise
the monthly bucketing of the `committed_at` column. -/
def format_commits_data (recs : List CommitRec) : List (Nat × Nat) :=
  if recs.isEmpty then []
  else aggregateMonths (recs.map (·.committed_at))

/-- A concrete two-commit input (one in 2024-01, one in 2024-03) used to
witness the aggregation theorem. -/
def exampleCommits : List CommitRec :=
  [{ commit_hash := "a", committed_at := ⟨2024, 1, 15⟩, message := "",
     author_name := "", author_email := "", author_login := "" },
   { commit_hash := "b", committed_at := ⟨2024, 3, 2⟩, message := "",
     author_name := "", author_email := "", author_login := "" }]

/-- The `author` object of a commit node in the contributor scan.  `none`
models a field that is absent, `null`, or an empty string (all falsy under
the Python `if ... and ...` tests of lines 422–427). -/
structure CommitAuthor where
  login : Option String
  email : Option String
  name : Option String
deriving DecidableEq, Repr

/-- One commit node as consumed by the contributor scan: the author fields
and the commit's `committedDate` (already parsed to its calendar day;
`none` models an absent/falsy `committedDate`, which line 432 skips). -/
structure ContribCommit where
  author : CommitAuthor
  committedDate : Option Date
deriving DecidableEq, Repr

/-- Identity resolution of lines 421–429: platform login, else author email,
else author display name, else the literal "unknown". -/
def authorIdent (a : CommitAuthor) : String :=
  match a.login with
  | some l => l
  | none =>
    match a.email with
    | some e => e
    | none =>
      match a.name with
      | some n => n
      | none => "unknown"

/-- Python `date` comparison (`commit_date < contributor_first_dates[author]`,
line 434): lexicographic on (year, month, day). -/
def dateLt (d e : Date) : Prop :=
  d.year < e.year ∨ (d.year = e.year ∧
    (d.month < e.month ∨ (d.month = e.month ∧ d.day < e.day)))

instance (d e : Date) : Decidable (dateLt d e) := by
  unfold dateLt; infer_instance

/-- The `contributor_first_dates` dict, as its lookup function. -/
abbrev ContribMap := String → Option Date

/-- One step of the scan (lines 417–435): resolve the identity and record the
commit date only when the identity is new or the date is strictly earlier
than the stored one. -/
def contribStep (mp : ContribMap) (c : ContribCommit) : ContribMap :=
  match c.committedDate with
  | none => mp
  | some d =>
    fun x =>
      if x = authorIdent c.author then
        match mp (authorIdent c.author) with
        | none => some d
        | some d0 => if dateLt d d0 then some d else some d0
      else mp x

/-- The whole scan over the observed commits, in observation order. -/
def contributor_first_dates (cs : List ContribCommit) : ContribMap :=
  cs.foldl contribStep (fun _ => none)

/-- The dates observed for one identity, in observation order. -/
def observedDates (cs : List ContribCommit) (a : String) : List Date :=
  cs.filterMap (fun c =>
    if authorIdent c.author = a then c.committedDate else none)

/-- The earlier of two dates, keeping the stored one on ties. -/
def min2 (d0 d : Date) : Date := if dateLt d d0 then d else d0

/-- Folding one more date into a stored optional earliest date. -/
def mergeDate (o : Option Date) (d : Date) : Option Date :=
  some (match o with | none => d | some d0 => min2 d0 d)

/-- The input list given by the specification's dedup test:
`[(author=A, 2024-03-01), (author=A, 2024-01-01), (author=B, 2024-02-01)]`. -/
def exampleContribCommits : List ContribCommit :=
  [{ author := { login := some "A", email := none, name := none },
     committedDate := some ⟨2024, 3, 1⟩ },
   { author := { login := some "A", email := none, name := none },
     committedDate := some ⟨2024, 1, 1⟩ },
   { author := { login := some "B", email := none, name := none },
     committedDate := some ⟨2024, 2, 1⟩ }]

/-- The same commits observed in a different order. -/
def exampleContribCommitsRev : List ContribCommit :=
  [{ author := { login := some "B", email := none, name := none },
     committedDate := some ⟨2024, 2, 1⟩ },
   { author := { login := some "A", email := none, name := none },
     committedDate := some ⟨2024, 1, 1⟩ },
   { author := { login := some "A", email := none, name := none },
     committedDate := some ⟨2024, 3, 1⟩ }]

/-- A raw `search/issues` item with the fields read by the normalization
loop (lines 848–878).  Date fields hold the calendar-day part of the raw
timestamp (the `[0:10]` slice); `has_pull_request_key` models
`'pull_request' in current_item`. -/
structure RawItem where
  number : Nat
  created_at : Date
  closed_at : Option Date
  labels : List String
  state : String
  author_login : String
  has_pull_request_key : Bool
deriving DecidableEq, Repr

/-- The normalized dict appended to `response_data` (lines 850–880); field
`state` is the source's `'State'` key and `author` its `'Author'` key. -/
structure IssueRec where
  issue_number : Nat
  created_at : Date
  closed_at : Option Date
  labels : List String
  state : String
  author : String
  is_pull_request : Bool
deriving DecidableEq, Repr

/-- Normalization of one well-formed item (lines 850–878): in particular
`is_pull_request := 'pull_request' in current_item`, independent of the
`data_type` the query asked for. -/
def normItem (it : RawItem) : IssueRec :=
  { issue_number := it.number
    created_at := it.created_at
    closed_at := it.closed_at
    labels := it.labels
    state := it.state
    author := it.author_login
    is_pull_request := it.has_pull_request_key }

/-- An element of a page's `items`: a well-formed item, or one whose
processing raises (e.g. a missing key, caught at lines 886–895), modelled
abstractly. -/
inductive ItemOrBad where
  | ok (it : RawItem)
  | bad
deriving DecidableEq, Repr

/-- One page of search results: the `items` array and the reported
`total_count` (line 839; parsed but never consulted for pagination). -/
structure SearchPage where
  items : List ItemOrBad
  total_count : Nat
deriving DecidableEq, Repr

/-- The item loop of lines 848–880: items are normalized and appended in
order until one raises; returns the appended records and whether an
exception occurred (stopping the loop at the raising item). -/
def procItems : List ItemOrBad → List IssueRec × Bool
  | [] => ([], false)
  | ItemOrBad.bad :: _ => ([], true)
  | ItemOrBad.ok it :: rest =>
    (normItem it :: (procItems rest).1, (procItems rest).2)

/-- The per-window pagination loop of lines 825–895: extract `items`; an
empty page breaks (line 844); otherwise process the items (an exception is
caught and sets `has_more_pages = False`, lines 886–895); afterwards
`has_more_pages = batch_size == 100` (line 884), so another page is
requested iff no exception occurred and the batch was exactly the requested
page size.  The list argument is the sequence of pages the upstream would
return for `page=1,2,...`; consuming the next element models issuing the
next page request. -/
def fetchWindow : List SearchPage → List IssueRec
  | [] => []
  | p :: rest =>
    if p.items.length = 0 then []
    else
      (procItems p.items).1 ++
        (if (procItems p.items).2 = false ∧ p.items.length = 100 then
          fetchWindow rest
        else [])

/-- Lines 807–810: the `type:` search qualifier selected by `data_type`. -/
def searchTypes (data_type : String) : String :=
  if data_type = "issue" then "type:issue" else "type:pr"

/-- The 12-month outer loop of lines 804–897: one `response_data`
accumulator across all monthly windows, each window contributing its
`fetchWindow` records in order.  `data_type` only selects the `type:` search
qualifier sent upstream (`searchTypes`); it is never consulted while
processing returned items, so it does not appear on the right-hand side. -/
def fetch_github_data (data_type : String)
    (windows : List (List SearchPage)) : List IssueRec :=
  windows.foldl (fun acc w => acc ++ fetchWindow w) []

/-- Embedding of `format_pulls_data` (lines 952–976): `[]` on an empty frame, filter the
records by the per-item `is_pull_request` flag, `[]` if none remain, else
monthly bucketing of the filtered `created_at` column. -/
def format_pulls_data (recs : List IssueRec) : List (Nat × Nat) :=
  if recs.isEmpty then []
  else
    if (recs.filter (·.is_pull_request)).isEmpty then []
    else aggregateMonths ((recs.filter (·.is_pull_request)).map (·.created_at))

/-- Embedding of `format_github_data` (lines 904–947): `([], [])` on an empty frame;
monthly bucketing of `created_at` for the created series; for the closed
series, sort and drop the null `closed_at` values (the sort does not affect
the per-month counts nor the min/max month, so it is not represented), and
bucket only if any remain, else `[]`. -/
def format_github_data (recs : List IssueRec) :
    List (Nat × Nat) × List (Nat × Nat) :=
  if recs.isEmpty then ([], [])
  else
    ( aggregateMonths (recs.map (·.created_at)),
      if (recs.filterMap (·.closed_at)).length > 0 then
        aggregateMonths (recs.filterMap (·.closed_at))
      else [] )

/-- A concrete non-pull-request record. -/
def exampleNonPullRec : IssueRec :=
  { issue_number := 1, created_at := ⟨2024, 1, 1⟩, closed_at := none,
    labels := [], state := "open", author := "a", is_pull_request := false }

/-- A commit node of a GraphQL history page, with the fields read by lines
155–165.  `user_login` is `none` when `author.user` is absent or has no
login, in which case line 165 yields the literal "unknown"; a node whose
shape makes the processing raise instead is `CommitNodeOrBad.bad`. -/
structure CommitNode where
  oid : String
  committedDate : Date
  message : String
  author_name : String
  author_email : String
  user_login : Option String
deriving DecidableEq, Repr

/-- A history node: well-formed, or one whose processing raises (the
exception is caught at lines 173–175). -/
inductive CommitNodeOrBad where
  | ok (n : CommitNode)
  | bad
deriving DecidableEq, Repr

/-- Normalization of one commit node (lines 155–167): `committedDate[:10]`
is the calendar-day part (the `Date` itself here),
`message.split('\n')[0][:100]` the first line truncated to 100 characters,
and a missing login resolves to "unknown". -/
def normCommitNode (n : CommitNode) : CommitRec :=
  { commit_hash := n.oid
    committed_at := n.committedDate
    message := (n.message.takeWhile (· ≠ '\n')).take 100
    author_name := n.author_name
    author_email := n.author_email
    author_login := n.user_login.getD "unknown" }

/-- A branch node of a GraphQL refs page (lines 280–296): its name and the
`committedDate`s of its `history(first: 1)` nodes. -/
structure BranchNode where
  name : String
  history : List Date
deriving DecidableEq, Repr

/-- A refs node: well-formed, or one whose processing raises (caught at
lines 302–304). -/
inductive BranchNodeOrBad where
  | ok (n : BranchNode)
  | bad
deriving DecidableEq, Repr

/-- A branch record as built by `fetch_github_branches` (lines 280–296). -/
structure BranchRec where
  branch_name : String
  created_at : Date
deriving DecidableEq, Repr

/-- One GraphQL response as seen by the pagination loops: a body carrying a
top-level `errors` key, or a page of nodes with its `pageInfo`.  `endCursor`
is only interpolated into the next request and never influences control flow
or output; a missing `data.repository...` chain degrades through the
defensive `.get(..., {})` chains to a page with no nodes and
`hasNextPage = False`. -/
inductive CursorResp (ν : Type) where
  | errors
  | page (nodes : List ν) (hasNextPage : Bool) (endCursor : Option String)

/-- The commit-node loop of lines 155–167: nodes are normalized and appended
in order until one raises; returns the appended records and whether an
exception occurred. -/
def procCommitNodes : List CommitNodeOrBad → List CommitRec × Bool
  | [] => ([], false)
  | CommitNodeOrBad.bad :: _ => ([], true)
  | CommitNodeOrBad.ok n :: rest =>
    (normCommitNode n :: (procCommitNodes rest).1, (procCommitNodes rest).2)

/-- The branch-node loop of lines 280–296: like the commit loop, except a
node whose `history` is empty is skipped (`continue`, line 294) rather than
recorded with a null date; `created_at` is the first history node's
`committedDate`. -/
def procBranchNodes : List BranchNodeOrBad → List BranchRec × Bool
  | [] => ([], false)
  | BranchNodeOrBad.bad :: _ => ([], true)
  | BranchNodeOrBad.ok n :: rest =>
    match n.history with
    | [] => procBranchNodes rest
    | d :: _ =>
      ({ branch_name := n.name, created_at := d } :: (procBranchNodes rest).1,
        (procBranchNodes rest).2)

/-- The cursor-pagination loop shared (duplicated verbatim) by
`fetch_github_commits` (lines 90–175) and `fetch_github_branches` (lines
220–304), parameterized by the per-page node processing: a response with
top-level `errors` breaks (returning what was accumulated); otherwise
`hasNextPage` is read from `pageInfo`; a page with zero nodes breaks; the
nodes are processed (an exception is caught and clears `has_next_page`);
fewer than 100 nodes also clears `has_next_page`; the loop continues only
while `has_next_page` remains true.  The list argument carries the
successive upstream responses; consuming the next element models issuing
the next request. -/
def cursorLoop {ν ρ : Type} (proc : List ν → List ρ × Bool) :
    List (CursorResp ν) → List ρ
  | [] => []
  | CursorResp.errors :: _ => []
  | CursorResp.page nodes hasNext _ :: rest =>
    if nodes.length = 0 then []
    else
      (proc nodes).1 ++
        (if (proc nodes).2 = true then []
         else if nodes.length < 100 then []
         else if hasNext = true then cursorLoop proc rest
         else [])

/-- The pagination loop of `fetch_github_commits` for one month window. -/
def fetch_commits_pages : List (CursorResp CommitNodeOrBad) → List CommitRec :=
  cursorLoop procCommitNodes

/-- The pagination loop of `fetch_github_branches`. -/
def fetch_branches_pages : List (CursorResp BranchNodeOrBad) → List BranchRec :=
  cursorLoop procBranchNodes

/-- A concrete well-formed commit node. -/
def exampleCommitNode : CommitNode :=
  { oid := "deadbeef", committedDate := ⟨2024, 5, 1⟩, message := "m",
    author_name := "n", author_email := "e", user_login := some "l" }

/-- A contributor record as built by `fetch_github_contributors`
(lines 446–450). -/
structure ContribRec where
  contributor_name : String
  first_contribution_date : Date
deriving DecidableEq, Repr

/-- Embedding of `format_branches_data` (lines 311–329): `[]` on an empty frame, else
monthly bucketing of `created_at`. -/
def format_branches_data (recs : List BranchRec) : List (Nat × Nat) :=
  if recs.isEmpty then []
  else aggregateMonths (recs.map (·.created_at))

/-- Embedding of `format_contributors_data` (lines 457–475): `[]` on an empty frame, else
monthly bucketing of `first_contribution_date`. -/
def format_contributors_data (recs : List ContribRec) : List (Nat × Nat) :=
  if recs.isEmpty then []
  else aggregateMonths (recs.map (·.first_contribution_date))

/-- The opaque JSON object returned by the forecast service (or the
placeholder), modelled as an association list of string fields. -/
abbrev UrlMap := List (String × String)

/-- The fixed empty-URL placeholder dict (lines 616–620 and its verbatim
copies; identical in every `model_type` arm). -/
def placeholderUrls : UrlMap :=
  [("model_loss_image_url", ""), ("lstm_generated_image_url", ""),
   ("all_issues_data_image", "")]

/-- The outcome of one `requests.post` to the forecast service: the post
raised (network failure), or a response with an HTTP status whose body
either parses as JSON (`some`) or makes `.json()` raise (`none`). -/
inductive ForecastOutcome where
  | netFail
  | resp (status : Nat) (body : Option UrlMap)
deriving DecidableEq, Repr

/-- The issues branch (lines 569–581): the two forecast posts and `.json()`
decodes run under no try/except, so any failure propagates out of the
handler (the framework then yields an error page, not this JSON response). -/
def forecastNoRecover : ForecastOutcome → Except Unit UrlMap
  | ForecastOutcome.netFail => Except.error ()
  | ForecastOutcome.resp _ none => Except.error ()
  | ForecastOutcome.resp _ (some m) => Except.ok m

/-- The pulls/commits/contributors pattern (lines 607–626, 653–672,
754–773): `try: post; .json() except: placeholder` — the placeholder is
substituted exactly when the post raises or the body is not JSON; a body
that decodes is passed through unchanged whatever the HTTP status. -/
def forecastTryJson : ForecastOutcome → UrlMap
  | ForecastOutcome.netFail => placeholderUrls
  | ForecastOutcome.resp _ none => placeholderUrls
  | ForecastOutcome.resp _ (some m) => m

/-- The branches pattern (lines 700–727): as `forecastTryJson`, but a
non-200 status also yields the placeholder (the only kind that checks the
status). -/
def forecastBranches : ForecastOutcome → UrlMap
  | ForecastOutcome.netFail => placeholderUrls
  | ForecastOutcome.resp _ none => placeholderUrls
  | ForecastOutcome.resp s (some m) => if s = 200 then m else placeholderUrls

/-- What one request observes from its collaborators: the repository
metadata counts (lines 783–784) and, per entity kind, the fetched
normalized records and the outcome of each forecast post. -/
structure Env where
  starCount : Nat
  forkCount : Nat
  issuesResp : List IssueRec
  pullsResp : List IssueRec
  commitsResp : List CommitRec
  branchesResp : List BranchRec
  contributorsResp : List ContribRec
  createdForecast : ForecastOutcome
  closedForecast : ForecastOutcome
  pullsForecast : ForecastOutcome
  commitsForecast : ForecastOutcome
  branchesForecast : ForecastOutcome
  contributorsForecast : ForecastOutcome
deriving DecidableEq, Repr

/-- The JSON response dict literal of lines 776–791 — always exactly these
fourteen keys. -/
structure GithubResponse where
  created : List (Nat × Nat)
  closed : List (Nat × Nat)
  pulls : List (Nat × Nat)
  commits : List (Nat × Nat)
  branches : List (Nat × Nat)
  contributors : List (Nat × Nat)
  starCount : Nat
  forkCount : Nat
  createdAtImageUrls : UrlMap
  closedAtImageUrls : UrlMap
  pullsImageUrls : UrlMap
  commitsImageUrls : UrlMap
  branchesImageUrls : UrlMap
  contributorsImageUrls : UrlMap
deriving DecidableEq, Repr

/-- The handler body (lines 509–794) after the repository-metadata fetch,
as a function of the request's `data_type` and the observed collaborator
data.  All series variables start `[]` and all image-URL dicts `{}` (lines
510–521); only the requested kind's branch assigns its own fields; an
unrecognized `data_type` matches no branch.  `model_type` only selects the
forecast URL (lines 527–544) and the identical placeholder dict inside the
except arms, so it does not appear.  An uncaught exception (possible only in
the issues branch's forecast calls) is `Except.error`. -/
def githubHandler (data_type : String) (env : Env) :
    Except Unit GithubResponse :=
  let base : GithubResponse :=
    { created := [], closed := [], pulls := [], commits := [], branches := [],
      contributors := [], starCount := env.starCount,
      forkCount := env.forkCount, createdAtImageUrls := [],
      closedAtImageUrls := [], pullsImageUrls := [], commitsImageUrls := [],
      branchesImageUrls := [], contributorsImageUrls := [] }
  if data_type = "issues" then
    let fmt := if env.issuesResp.isEmpty then ([], [])
               else format_github_data env.issuesResp
    match forecastNoRecover env.createdForecast,
          forecastNoRecover env.closedForecast with
    | Except.ok cm, Except.ok clm =>
      Except.ok { base with created := fmt.1, closed := fmt.2,
                            createdAtImageUrls := cm,
                            closedAtImageUrls := clm }
    | _, _ => Except.error ()
  else if data_type = "pulls" then
    Except.ok { base with
      pulls := if env.pullsResp.isEmpty then []
               else format_pulls_data env.pullsResp,
      pullsImageUrls := forecastTryJson env.pullsForecast }
  else if data_type = "commits" then
    Except.ok { base with
      commits := if env.commitsResp.isEmpty then []
                 else format_commits_data env.commitsResp,
      commitsImageUrls := forecastTryJson env.commitsForecast }
  else if data_type = "branches" then
    Except.ok { base with
      branches := if env.branchesResp.isEmpty then []
                  else format_branches_data env.branchesResp,
      branchesImageUrls := forecastBranches env.branchesForecast }
  else if data_type = "contributors" then
    Except.ok { base with
      contributors := if env.contributorsResp.isEmpty then []
                      else format_contributors_data env.contributorsResp,
      contributorsImageUrls := forecastTryJson env.contributorsForecast }
  else
    Except.ok base

/-- An environment in which every forecast post raises (network failure) and
every fetch returned nothing. -/
def exampleEnvNetFail : Env :=
  { starCount := 0, forkCount := 0, issuesResp := [], pullsResp := [],
    commitsResp := [], branchesResp := [], contributorsResp := [],
    createdForecast := ForecastOutcome.netFail,
    closedForecast := ForecastOutcome.netFail,
    pullsForecast := ForecastOutcome.netFail,
    commitsForecast := ForecastOutcome.netFail,
    branchesForecast := ForecastOutcome.netFail,
    contributorsForecast := ForecastOutcome.netFail }

/-- The response concretely produced for `data_type = "commits"` under
`exampleEnvNetFail`. -/
def exampleCommitsResponse : GithubResponse :=
  { created := [], closed := [], pulls := [], commits := [], branches := [],
    contributors := [], starCount := 0, forkCount := 0,
    createdAtImageUrls := [], closedAtImageUrls := [], pullsImageUrls := [],
    commitsImageUrls := placeholderUrls, branchesImageUrls := [],
    contributorsImageUrls := [] }

theorem windowsFrom_length (d : Date) (n : Nat) : (windowsFrom d n).length = n := by
  induction n generalizing d with
  | zero => rfl
  | succ n ih => simp [windowsFrom, ih]

theorem foldl_min_le_mem (m : Nat) (ms : List Nat) :
    ∀ x ∈ m :: ms, ms.foldl Nat.min m ≤ x := by
  induction ms generalizing m with
  | nil => intro x hx; simp at hx; simp [hx]
  | cons y ys ih =>
    intro x hx
    simp only [List.mem_cons] at hx
    simp only [List.foldl_cons]
    have hbase : List.foldl Nat.min (Nat.min m y) ys ≤ Nat.min m y :=
      ih (Nat.min m y) (Nat.min m y) (by simp)
    rcases hx with rfl | rfl | hx
    · exact le_trans hbase (Nat.min_le_left _ _)
    · exact le_trans hbase (Nat.min_le_right _ _)
    · exact ih (Nat.min m y) x (List.mem_cons_of_mem _ hx)

theorem le_foldl_max_mem (m : Nat) (ms : List Nat) :
    ∀ x ∈ m :: ms, x ≤ ms.foldl Nat.max m := by
  induction ms generalizing m with
  | nil => intro x hx; simp at hx; simp [hx]
  | cons y ys ih =>
    intro x hx
    simp only [List.mem_cons] at hx
    simp only [List.foldl_cons]
    have hbase : Nat.max m y ≤ List.foldl Nat.max (Nat.max m y) ys :=
      ih (Nat.max m y) (Nat.max m y) (by simp)
    rcases hx with rfl | rfl | hx
    · exact le_trans (Nat.le_max_left _ _) hbase
    · exact le_trans (Nat.le_max_right _ _) hbase
    · exact ih (Nat.max m y) x (List.mem_cons_of_mem _ hx)

theorem sum_map_range (f : Nat → Nat) (n : Nat) :
    ((List.range n).map f).sum = ∑ i in Finset.range n, f i := by
  induction n with
  | zero => rfl
  | succ n ih => simp [List.range_succ, Finset.sum_range_succ, ih]

theorem sum_indicator_range (lo n x : Nat) (h1 : lo ≤ x) (h2 : x < lo + n) :
    (∑ i in Finset.range n, if x = lo + i then 1 else 0) = 1 := by
  have hrw : ∀ i, (if x = lo + i then 1 else 0) = (if i = x - lo then 1 else 0) := by
    intro i
    rcases Nat.decEq x (lo + i) with hne | he
    · rw [if_neg hne, if_neg (by omega)]
    · rw [if_pos he, if_pos (by omega)]
  calc (∑ i in Finset.range n, if x = lo + i then 1 else 0)
      = ∑ i in Finset.range n, if i = x - lo then 1 else 0 :=
        Finset.sum_congr rfl (fun i _ => hrw i)
    _ = 1 := by
        rw [Finset.sum_ite_eq' (Finset.range n) (x - lo) (fun _ => 1)]
        rw [if_pos (Finset.mem_range.mpr (by omega))]

theorem sum_count_range (l : List Nat) (lo n : Nat)
    (h : ∀ x ∈ l, lo ≤ x ∧ x < lo + n) :
    ((List.range n).map (fun i => l.count (lo + i))).sum = l.length := by
  rw [sum_map_range]
  induction l with
  | nil => simp
  | cons x xs ih =>
    have hx := h x (by simp)
    have hsum : (∑ i in Finset.range n, (x :: xs).count (lo + i))
        = (∑ i in Finset.range n, xs.count (lo + i))
          + ∑ i in Finset.range n, if x = lo + i then 1 else 0 := by
      rw [← Finset.sum_add_distrib]
      refine Finset.sum_congr rfl (fun i _ => ?_)
      simp [List.count_cons]
    rw [hsum, ih (fun y hy => h y (by simp [hy])),
        sum_indicator_range lo n x hx.1 hx.2]
    simp

/-- Unfolding of `aggregateMonths` on a non-empty projected-month list. -/
theorem aggregateMonths_eq (dates : List Date) (m : Nat) (ms : List Nat)
    (h : dates.map monthIdx = m :: ms) :
    aggregateMonths dates =
      (List.range (ms.foldl Nat.max m + 1 - ms.foldl Nat.min m)).map
        (fun i => (ms.foldl Nat.min m + i, (m :: ms).count (ms.foldl Nat.min m + i))) := by
  unfold aggregateMonths
  rw [h]

theorem aggregateMonths_keys (dates : List Date) (m : Nat) (ms : List Nat)
    (h : dates.map monthIdx = m :: ms) :
    (aggregateMonths dates).map Prod.fst =
      (List.range (ms.foldl Nat.max m + 1 - ms.foldl Nat.min m)).map
        (fun i => ms.foldl Nat.min m + i) := by
  rw [aggregateMonths_eq dates m ms h, List.map_map]
  rfl

theorem aggregateMonths_counts (dates : List Date) (m : Nat) (ms : List Nat)
    (h : dates.map monthIdx = m :: ms) :
    ∀ p ∈ aggregateMonths dates, p.2 = (dates.map monthIdx).count p.1 := by
  rw [aggregateMonths_eq dates m ms h, h]
  intro p hp
  simp only [List.mem_map, List.mem_range] at hp
  obtain ⟨i, _, rfl⟩ := hp
  rfl

theorem aggregateMonths_sum (dates : List Date) (m : Nat) (ms : List Nat)
    (h : dates.map monthIdx = m :: ms) :
    ((aggregateMonths dates).map Prod.snd).sum = dates.length := by
  rw [aggregateMonths_eq dates m ms h, List.map_map]
  have hlen : dates.length = (m :: ms).length := by
    rw [← h, List.length_map]
  rw [hlen]
  have hbound : ∀ x ∈ m :: ms,
      ms.foldl Nat.min m ≤ x ∧
      x < ms.foldl Nat.min m + (ms.foldl Nat.max m + 1 - ms.foldl Nat.min m) := by
    intro x hx
    have h1 := foldl_min_le_mem m ms x hx
    have h2 := le_foldl_max_mem m ms x hx
    have h3 := foldl_min_le_mem m ms m (by simp)
    have h4 := le_foldl_max_mem m ms m (by simp)
    omega
  have := sum_count_range (m :: ms) (ms.foldl Nat.min m)
      (ms.foldl Nat.max m + 1 - ms.foldl Nat.min m) hbound
  rw [← this]
  rfl

theorem foldl_min_mem (m : Nat) (ms : List Nat) : ms.foldl Nat.min m ∈ m :: ms := by
  induction ms generalizing m with
  | nil => simp
  | cons y ys ih =>
    simp only [List.foldl_cons]
    rcases List.mem_cons.mp (ih (Nat.min m y)) with h | h
    · rcases Nat.le_total m y with hle | hle
      · have hmin : Nat.min m y = m := by show min m y = m; omega
        rw [h, hmin]; simp
      · have hmin : Nat.min m y = y := by show min m y = y; omega
        rw [h, hmin]; simp
    · exact List.mem_cons_of_mem _ (List.mem_cons_of_mem _ h)

theorem foldl_max_mem (m : Nat) (ms : List Nat) : ms.foldl Nat.max m ∈ m :: ms := by
  induction ms generalizing m with
  | nil => simp
  | cons y ys ih =>
    simp only [List.foldl_cons]
    rcases List.mem_cons.mp (ih (Nat.max m y)) with h | h
    · rcases Nat.le_total m y with hle | hle
      · have hmax : Nat.max m y = y := by show max m y = y; omega
        rw [h, hmax]; simp
      · have hmax : Nat.max m y = m := by show max m y = m; omega
        rw [h, hmax]; simp
    · exact List.mem_cons_of_mem _ (List.mem_cons_of_mem _ h)

theorem get_map_range {α : Type} (f : Nat → α) (n i : Nat)
    (h : i < ((List.range n).map f).length) :
    ((List.range n).map f).get ⟨i, h⟩ = f i := by
  simp [List.get_eq_getElem]

/-- Claim C1. For every non-empty list of commit records, `format_commits_data`
returns a series over exactly the months from the minimum to the maximum
projected month: the `month_key` sequence is strictly increasing stepping by
one month (no skipped calendar months), each bucket's count is the number of
records projecting to that month (hence 0 for event-free months), and the
counts sum to the number of input records (all commit records carry a defined
date).  For the empty collection it returns the empty series. -/
theorem commits_monthly_aggregation_dense :
    format_commits_data [] = [] ∧
    ∀ recs : List CommitRec, recs ≠ [] →
      ∃ lo hi, lo ≤ hi ∧
        (∀ r ∈ recs, lo ≤ monthIdx r.committed_at ∧ monthIdx r.committed_at ≤ hi) ∧
        (∃ r ∈ recs, monthIdx r.committed_at = lo) ∧
        (∃ r ∈ recs, monthIdx r.committed_at = hi) ∧
        (format_commits_data recs).map Prod.fst =
          (List.range (hi + 1 - lo)).map (fun i => lo + i) ∧
        (∀ i, i + 1 < (format_commits_data recs).length →
          ∃ a b, (format_commits_data recs)[i]? = some a ∧
            (format_commits_data recs)[i + 1]? = some b ∧ b.1 = a.1 + 1) ∧
        (∀ p ∈ format_commits_data recs,
          p.2 = (recs.map (fun r => monthIdx r.committed_at)).count p.1) ∧
        ((format_commits_data recs).map Prod.snd).sum = recs.length := by
  constructor
  · rfl
  intro recs hne
  match recs, hne with
  | r :: rs, _ =>
    have hfmt : format_commits_data (r :: rs) =
        aggregateMonths ((r :: rs).map (·.committed_at)) := by
      simp [format_commits_data]
    have hproj : ((r :: rs).map (·.committed_at)).map monthIdx =
        monthIdx r.committed_at :: rs.map (fun x => monthIdx x.committed_at) := by
      simp
    set m := monthIdx r.committed_at with hm
    set ms := rs.map (fun x => monthIdx x.committed_at) with hms
    refine ⟨ms.foldl Nat.min m, ms.foldl Nat.max m, ?_, ?_, ?_, ?_, ?_, ?_, ?_, ?_⟩
    · exact le_trans (foldl_min_le_mem m ms m (by simp))
        (le_foldl_max_mem m ms m (by simp))
    · intro x hx
      have hmem : monthIdx x.committed_at ∈ m :: ms := by
        rw [← hproj]
        exact List.mem_map_of_mem _ (List.mem_map_of_mem _ hx)
      exact ⟨foldl_min_le_mem m ms _ hmem, le_foldl_max_mem m ms _ hmem⟩
    · have : ms.foldl Nat.min m ∈ ((r :: rs).map (·.committed_at)).map monthIdx := by
        rw [hproj]; exact foldl_min_mem m ms
      rw [List.map_map, List.mem_map] at this
      obtain ⟨x, hx, hx2⟩ := this
      exact ⟨x, hx, hx2⟩
    · have : ms.foldl Nat.max m ∈ ((r :: rs).map (·.committed_at)).map monthIdx := by
        rw [hproj]; exact foldl_max_mem m ms
      rw [List.map_map, List.mem_map] at this
      obtain ⟨x, hx, hx2⟩ := this
      exact ⟨x, hx, hx2⟩
    · rw [hfmt]
      exact aggregateMonths_keys _ m ms hproj
    · intro i hi
      have he := aggregateMonths_eq _ m ms hproj
      rw [hfmt, he] at hi ⊢
      simp only [List.length_map, List.length_range] at hi
      refine ⟨(ms.foldl Nat.min m + i, (m :: ms).count (ms.foldl Nat.min m + i)),
              (ms.foldl Nat.min m + (i + 1),
                (m :: ms).count (ms.foldl Nat.min m + (i + 1))), ?_, ?_, rfl⟩ <;>
        simp [List.getElem?_map, List.getElem?_range, Nat.lt_of_succ_lt hi, hi]
    · intro p hp
      rw [hfmt] at hp
      have := aggregateMonths_counts _ m ms hproj p hp
      rw [this, List.map_map]
      rfl
    · rw [hfmt]
      have := aggregateMonths_sum _ m ms hproj
      rw [this, List.length_map]

/-- Witness for C1: the concrete two-commit input satisfies the
non-emptiness hypothesis, and the theorem's conclusion holds there; in
particular the counts sum to 2. -/
theorem commits_monthly_aggregation_dense_witness :
    exampleCommits ≠ [] ∧
    ((format_commits_data exampleCommits).map Prod.snd).sum = 2 := by
  refine ⟨by decide, ?_⟩
  obtain ⟨lo, hi, _, _, _, _, _, _, _, hsum⟩ :=
    commits_monthly_aggregation_dense.2 exampleCommits (by decide)
  exact hsum

theorem windowsFrom_chain (d : Date) (n i : Nat)
    (h : i + 1 < (windowsFrom d n).length) :
    ∃ w w', (windowsFrom d n)[i]? = some w ∧
      (windowsFrom d n)[i + 1]? = some w' ∧ w'.2 = w.1 := by
  induction n generalizing d i with
  | zero => simp [windowsFrom] at h
  | succ n ih =>
    rw [windowsFrom_length] at h
    match i with
    | 0 =>
      match n, h with
      | Nat.succ n', _ =>
        refine ⟨(minusOneMonth d, d),
          (minusOneMonth (minusOneMonth d), minusOneMonth d), ?_, ?_, rfl⟩
        · simp [windowsFrom]
        · simp [windowsFrom]
    | Nat.succ j =>
      have h' : j + 1 < (windowsFrom (minusOneMonth d) n).length := by
        rw [windowsFrom_length]; omega
      obtain ⟨w, w', h1, h2, h3⟩ := ih (minusOneMonth d) j h'
      exact ⟨w, w', by simp [windowsFrom, h1], by simp [windowsFrom, h2], h3⟩

theorem windowsFrom_width (d : Date) (n : Nat) :
    ∀ w ∈ windowsFrom d n, w.1 = minusOneMonth w.2 := by
  induction n generalizing d with
  | zero => simp [windowsFrom]
  | succ n ih =>
    intro w hw
    rw [windowsFrom] at hw
    rcases List.mem_cons.mp hw with rfl | hw
    · rfl
    · exact ih _ _ hw

/-- Claim C2. The window-walking loop produces exactly 12 windows, most recent
first; walking backward they are contiguous and non-overlapping in the sense
that each next (earlier) window's end equals the previous window's start;
every window is exactly one calendar month wide under `relativedelta`
semantics (`start = end + relativedelta(months=-1)`); and month-length edge
cases follow calendar clamping: the anchor 2021-03-31 produces the prior
boundary 2021-02-28. -/
theorem window_iterator_twelve_contiguous :
    (∀ d, (windowsFrom d 12).length = 12) ∧
    (∀ d n i, i + 1 < (windowsFrom d n).length →
      ∃ w w', (windowsFrom d n)[i]? = some w ∧
        (windowsFrom d n)[i + 1]? = some w' ∧ w'.2 = w.1) ∧
    (∀ d n, ∀ w ∈ windowsFrom d n, w.1 = minusOneMonth w.2) ∧
    minusOneMonth ⟨2021, 3, 31⟩ = ⟨2021, 2, 28⟩ :=
  ⟨fun d => windowsFrom_length d 12,
   fun d n i h => windowsFrom_chain d n i h,
   fun d n => windowsFrom_width d n,
   by decide⟩

/-- Witness for C2: at the concrete anchor 2021-03-31 with the code's 12
windows, the chain hypothesis holds at index 0 and the theorem applies. -/
theorem window_iterator_twelve_contiguous_witness :
    (0 : Nat) + 1 < (windowsFrom ⟨2021, 3, 31⟩ 12).length ∧
    ∃ w w', (windowsFrom ⟨2021, 3, 31⟩ 12)[0]? = some w ∧
      (windowsFrom ⟨2021, 3, 31⟩ 12)[0 + 1]? = some w' ∧ w'.2 = w.1 :=
  ⟨by decide, window_iterator_twelve_contiguous.2.1 ⟨2021, 3, 31⟩ 12 0 (by decide)⟩

theorem dateLt_asymm_eq (a b : Date) (h1 : ¬dateLt a b) (h2 : ¬dateLt b a) :
    a = b := by
  obtain ⟨y1, m1, d1⟩ := a
  obtain ⟨y2, m2, d2⟩ := b
  simp only [dateLt] at h1 h2
  simp only [Date.mk.injEq]
  omega

theorem dateLt_irrefl (a : Date) : ¬dateLt a a := by
  obtain ⟨y, m, d⟩ := a
  simp only [dateLt]
  omega

theorem dateLt_trans (a b c : Date) (h1 : dateLt a b) (h2 : dateLt b c) :
    dateLt a c := by
  obtain ⟨y1, m1, d1⟩ := a
  obtain ⟨y2, m2, d2⟩ := b
  obtain ⟨y3, m3, d3⟩ := c
  simp only [dateLt] at h1 h2 ⊢
  omega

theorem dateLt_neg_trans (a b c : Date) (h1 : ¬dateLt a b) (h2 : ¬dateLt b c) :
    ¬dateLt a c := by
  obtain ⟨y1, m1, d1⟩ := a
  obtain ⟨y2, m2, d2⟩ := b
  obtain ⟨y3, m3, d3⟩ := c
  simp only [dateLt] at h1 h2 ⊢
  omega

theorem min2_comm (a b : Date) : min2 a b = min2 b a := by
  obtain ⟨y1, m1, d1⟩ := a
  obtain ⟨y2, m2, d2⟩ := b
  unfold min2
  split_ifs <;> simp_all only [dateLt, Date.mk.injEq] <;> omega

theorem min2_left_comm (a b c : Date) : min2 (min2 a b) c = min2 (min2 a c) b := by
  obtain ⟨y1, m1, d1⟩ := a
  obtain ⟨y2, m2, d2⟩ := b
  obtain ⟨y3, m3, d3⟩ := c
  unfold min2
  split_ifs <;> simp_all only [dateLt, Date.mk.injEq] <;> omega

theorem mergeDate_left_comm (o : Option Date) (d1 d2 : Date) :
    mergeDate (mergeDate o d1) d2 = mergeDate (mergeDate o d2) d1 := by
  cases o with
  | none => simp only [mergeDate, min2_comm]
  | some d0 => simp only [mergeDate, min2_left_comm]

theorem foldl_mergeDate_perm {l1 l2 : List Date} (h : l1.Perm l2) :
    ∀ o, l1.foldl mergeDate o = l2.foldl mergeDate o := by
  induction h with
  | nil => intro o; rfl
  | cons x _ ih => intro o; simp only [List.foldl_cons]; exact ih _
  | swap x y l => intro o; simp only [List.foldl_cons]; rw [mergeDate_left_comm]
  | trans _ _ ih1 ih2 => intro o; rw [ih1, ih2]

/-- The scan's map at one identity is the `mergeDate`-fold of the dates
observed for that identity. -/
theorem contribFold_eq_mergeFold (cs : List ContribCommit) (mp : ContribMap)
    (a : String) :
    (cs.foldl contribStep mp) a = (observedDates cs a).foldl mergeDate (mp a) := by
  induction cs generalizing mp with
  | nil => rfl
  | cons c cs ih =>
    simp only [List.foldl_cons]
    rw [ih]
    rcases hc : c.committedDate with _ | d
    · have h1 : contribStep mp c = mp := by simp [contribStep, hc]
      have h2 : observedDates (c :: cs) a = observedDates cs a := by
        simp [observedDates, List.filterMap_cons, hc]
      rw [h1, h2]
    · by_cases ha : authorIdent c.author = a
      · have h1 : (contribStep mp c) a = mergeDate (mp a) d := by
          cases hmp : mp a <;>
            simp [contribStep, hc, ha, hmp, mergeDate, min2] <;>
            split <;> rfl
        have h2 : observedDates (c :: cs) a = d :: observedDates cs a := by
          simp [observedDates, List.filterMap_cons, hc, ha]
        rw [h1, h2, List.foldl_cons]
      · have h1 : (contribStep mp c) a = mp a := by
          simp only [contribStep, hc]
          rw [if_neg (fun h => ha h.symm)]
        have h2 : observedDates (c :: cs) a = observedDates cs a := by
          simp [observedDates, List.filterMap_cons, if_neg ha]
        rw [h1, h2]

theorem foldl_mergeDate_isSome (l : List Date) (d0 : Date) :
    ∃ d, l.foldl mergeDate (some d0) = some d := by
  induction l generalizing d0 with
  | nil => exact ⟨d0, rfl⟩
  | cons x xs ih => exact ih (min2 d0 x)

theorem foldl_mergeDate_min (l : List Date) :
    ∀ (o : Option Date) (d : Date), l.foldl mergeDate o = some d →
      (d ∈ l ∨ o = some d) ∧ (∀ e ∈ l, ¬dateLt e d) ∧
      (∀ d0, o = some d0 → ¬dateLt d0 d) := by
  induction l with
  | nil =>
    intro o d h
    simp only [List.foldl_nil] at h
    refine ⟨Or.inr h, by simp, ?_⟩
    intro d0 h0
    rw [h0] at h
    obtain rfl : d0 = d := Option.some.inj h
    exact dateLt_irrefl _
  | cons x xs ih =>
    intro o d h
    simp only [List.foldl_cons] at h
    obtain ⟨hmem, hmin, hbase⟩ := ih (mergeDate o x) d h
    have hxd : ¬dateLt x d := by
      cases o with
      | none => exact hbase x rfl
      | some d0 =>
        have hb := hbase (min2 d0 x) rfl
        by_cases hlt : dateLt x d0
        · simpa [min2, hlt] using hb
        · have hb0 : ¬dateLt d0 d := by simpa [min2, hlt] using hb
          exact dateLt_neg_trans x d0 d hlt hb0
    refine ⟨?_, ?_, ?_⟩
    · rcases hmem with hmem | hmem
      · exact Or.inl (List.mem_cons_of_mem _ hmem)
      · cases o with
        | none =>
          have hx : x = d := by simpa [mergeDate] using hmem
          exact Or.inl (hx ▸ List.mem_cons_self _ _)
        | some d0 =>
          have hx : min2 d0 x = d := by simpa [mergeDate] using hmem
          by_cases hlt : dateLt x d0
          · rw [min2, if_pos hlt] at hx
            exact Or.inl (hx ▸ List.mem_cons_self _ _)
          · rw [min2, if_neg hlt] at hx
            exact Or.inr (by rw [hx])
    · intro e he
      rcases List.mem_cons.mp he with rfl | he
      · exact hxd
      · exact hmin e he
    · intro d0 h0 hlt0
      subst h0
      have hb := hbase (min2 d0 x) rfl
      by_cases hlt : dateLt x d0
      · have hbx : ¬dateLt x d := by simpa [min2, hlt] using hb
        exact hbx (dateLt_trans x d0 d hlt hlt0)
      · have hb0 : ¬dateLt d0 d := by simpa [min2, hlt] using hb
        exact hb0 hlt0

theorem contributor_none_iff (cs : List ContribCommit) (a : String) :
    contributor_first_dates cs a = none ↔ observedDates cs a = [] := by
  rw [contributor_first_dates, contribFold_eq_mergeFold]
  constructor
  · intro h
    cases hl : observedDates cs a with
    | nil => rfl
    | cons x xs =>
      rw [hl, List.foldl_cons] at h
      obtain ⟨d, hd⟩ := foldl_mergeDate_isSome xs x
      rw [show mergeDate none x = some x from rfl] at h
      rw [hd] at h
      cases h
  · intro h; rw [h]; rfl

/-- Forward direction: whatever the scan retains for an identity is an
observed date for that identity, and no observed date is strictly earlier. -/
theorem contributor_some_min (cs : List ContribCommit) (a : String) (d : Date)
    (h : contributor_first_dates cs a = some d) :
    d ∈ observedDates cs a ∧ ∀ e ∈ observedDates cs a, ¬dateLt e d := by
  rw [contributor_first_dates, contribFold_eq_mergeFold] at h
  obtain ⟨hmem, hmin, _⟩ := foldl_mergeDate_min _ _ _ h
  rcases hmem with hmem | hmem
  · exact ⟨hmem, hmin⟩
  · cases hmem

/-- Claim C3. The contributor map retains, for every identity, exactly the
earliest observed commit date (`some d` iff `d` is observed for that identity
and no observed date is strictly earlier), the retained map is independent of
the observation order (invariant under permutation of the commits), and on
the specification's example `[(A, 2024-03-01), (A, 2024-01-01),
(B, 2024-02-01)]` the result is exactly `{A: 2024-01-01, B: 2024-02-01}`. -/
theorem contributors_earliest_order_independent :
    (∀ cs a d, contributor_first_dates cs a = some d ↔
      (d ∈ observedDates cs a ∧ ∀ e ∈ observedDates cs a, ¬dateLt e d)) ∧
    (∀ cs1 cs2 : List ContribCommit, cs1.Perm cs2 →
      ∀ a, contributor_first_dates cs1 a = contributor_first_dates cs2 a) ∧
    contributor_first_dates exampleContribCommits "A" = some ⟨2024, 1, 1⟩ ∧
    contributor_first_dates exampleContribCommits "B" = some ⟨2024, 2, 1⟩ ∧
    (∀ x, x ≠ "A" → x ≠ "B" →
      contributor_first_dates exampleContribCommits x = none) := by
  refine ⟨?_, ?_, by decide, by decide, ?_⟩
  · intro cs a d
    constructor
    · exact contributor_some_min cs a d
    · rintro ⟨hmem, hmin⟩
      cases hf : contributor_first_dates cs a with
      | none =>
        have : observedDates cs a = [] := (contributor_none_iff cs a).mp hf
        rw [this] at hmem
        cases hmem
      | some d2 =>
        obtain ⟨hmem2, hmin2⟩ := contributor_some_min cs a d2 hf
        have : d = d2 := dateLt_asymm_eq d d2 (hmin2 d hmem) (hmin d2 hmem2)
        rw [this]
  · intro cs1 cs2 hp a
    rw [contributor_first_dates, contributor_first_dates,
      contribFold_eq_mergeFold, contribFold_eq_mergeFold]
    exact foldl_mergeDate_perm (hp.filterMap _) _
  · intro x hA hB
    rw [contributor_none_iff]
    have h1 : ¬("A" = x) := fun h => hA h.symm
    have h2 : ¬("B" = x) := fun h => hB h.symm
    simp [observedDates, exampleContribCommits, authorIdent,
      List.filterMap_cons, h1, h2]

/-- Witness for C3: the example and its reversal are a concrete permutation
pair, and the theorem's order-independence applies to them. -/
theorem contributors_earliest_order_independent_witness :
    exampleContribCommits.Perm exampleContribCommitsRev ∧
    contributor_first_dates exampleContribCommits "A" =
      contributor_first_dates exampleContribCommitsRev "A" :=
  ⟨by decide,
   contributors_earliest_order_independent.2.1 _ _ (by decide) "A"⟩

theorem fetchWindow_cons_short (p : SearchPage) (rest : List SearchPage)
    (h : p.items.length < 100) :
    fetchWindow (p :: rest) = fetchWindow [p] := by
  show (if p.items.length = 0 then []
    else (procItems p.items).1 ++
      (if (procItems p.items).2 = false ∧ p.items.length = 100 then
        fetchWindow rest else [])) =
    (if p.items.length = 0 then []
    else (procItems p.items).1 ++
      (if (procItems p.items).2 = false ∧ p.items.length = 100 then
        fetchWindow [] else []))
  by_cases h0 : p.items.length = 0
  · rw [if_pos h0, if_pos h0]
  · rw [if_neg h0, if_neg h0,
      if_neg (fun hh => absurd hh.2 (Nat.ne_of_lt h)),
      if_neg (fun hh => absurd hh.2 (Nat.ne_of_lt h))]

/-- Claim C4. A page returning fewer than the requested page size of 100 items
terminates that window's pagination: no further page of the oracle is
consulted, and the reported `total_count` plays no role — the result is
unchanged for any remaining pages and for any total (in particular one that
implies more items remain). -/
theorem offset_short_page_terminates
    (items : List ItemOrBad) (tc tc' : Nat) (rest rest' : List SearchPage)
    (h : items.length < 100) :
    fetchWindow ({ items := items, total_count := tc } :: rest) =
      fetchWindow [{ items := items, total_count := tc }] ∧
    fetchWindow ({ items := items, total_count := tc } :: rest) =
      fetchWindow ({ items := items, total_count := tc' } :: rest') := by
  refine ⟨fetchWindow_cons_short _ _ h, ?_⟩
  have h1 := fetchWindow_cons_short { items := items, total_count := tc } rest h
  have h2 := fetchWindow_cons_short { items := items, total_count := tc' } rest' h
  rw [h1, h2]
  rfl

/-- Witness for C4: a concrete window whose sole page carries 1 item while
its `total_count` reports 500. -/
theorem offset_short_page_terminates_witness :
    ([ItemOrBad.bad] : List ItemOrBad).length < 100 ∧
    fetchWindow ({ items := [ItemOrBad.bad], total_count := 500 } ::
        [{ items := [ItemOrBad.bad], total_count := 500 }]) =
      fetchWindow [{ items := [ItemOrBad.bad], total_count := 500 }] :=
  ⟨by decide,
   (offset_short_page_terminates [ItemOrBad.bad] 500 500
     [{ items := [ItemOrBad.bad], total_count := 500 }] [] (by decide)).1⟩

theorem procItems_ok_bad (pre : List RawItem) (post : List ItemOrBad) :
    procItems (pre.map ItemOrBad.ok ++ ItemOrBad.bad :: post) =
      (pre.map normItem, true) := by
  induction pre with
  | nil => rfl
  | cons it pre ih => simp [procItems, ih]

theorem fetch_github_data_flatten (dt : String) (ws : List (List SearchPage)) :
    fetch_github_data dt ws = (ws.map fetchWindow).flatten := by
  suffices h : ∀ acc, ws.foldl (fun acc w => acc ++ fetchWindow w) acc =
      acc ++ (ws.map fetchWindow).flatten by
    simpa using h []
  induction ws with
  | nil => intro acc; simp
  | cons w ws ih => intro acc; simp [List.foldl_cons, ih, List.append_assoc]

/-- Claim C9. A failure while processing one page of one monthly window is
absorbed locally: the fetch is total (the model of the loop catches the
exception rather than propagating it), `fetch_github_data` is always the
concatenation of the per-window results — so whatever happens inside one
window, the windows before and after it contribute their records unchanged —
and inside the failing window the records appended before the raising item
are kept while only that window's pagination stops. -/
theorem offset_page_failure_absorbed :
    (∀ dt ws, fetch_github_data dt ws = (ws.map fetchWindow).flatten) ∧
    (∀ dt ws1 w ws2, fetch_github_data dt (ws1 ++ w :: ws2) =
      fetch_github_data dt ws1 ++ fetchWindow w ++ fetch_github_data dt ws2) ∧
    (∀ (pre : List RawItem) (post : List ItemOrBad) tc rest,
      fetchWindow
          ({ items := (pre.map ItemOrBad.ok ++ ItemOrBad.bad :: post),
             total_count := tc } :: rest) = pre.map normItem) := by
  refine ⟨fetch_github_data_flatten, ?_, ?_⟩
  · intro dt ws1 w ws2
    rw [fetch_github_data_flatten, fetch_github_data_flatten, fetch_github_data_flatten]
    simp [List.append_assoc]
  · intro pre post tc rest
    show (if (pre.map ItemOrBad.ok ++ ItemOrBad.bad :: post).length = 0 then []
      else (procItems (pre.map ItemOrBad.ok ++ ItemOrBad.bad :: post)).1 ++
        (if (procItems (pre.map ItemOrBad.ok ++ ItemOrBad.bad :: post)).2 = false ∧
            (pre.map ItemOrBad.ok ++ ItemOrBad.bad :: post).length = 100 then
          fetchWindow rest else [])) = pre.map normItem
    rw [if_neg (by simp)]
    rw [procItems_ok_bad]
    simp

/-- Claim C8. The normalized record's `is_pull_request` flag equals the
presence of the `'pull_request'` marker key on the raw item, not the entity
kind requested by the query: the requested kind only selects the search
query's `type:` qualifier and the fetched records are independent of it; and
the downstream pulls series is computed from exactly the records whose
per-item flag is set — all flags false yields the empty pulls series, and
otherwise the series counts sum to the number of flagged records. -/
theorem is_pull_request_from_marker :
    (∀ it, (normItem it).is_pull_request = it.has_pull_request_key) ∧
    (∀ k1 k2 ws, fetch_github_data k1 ws = fetch_github_data k2 ws) ∧
    (searchTypes "issue" = "type:issue" ∧ searchTypes "pr" = "type:pr") ∧
    (∀ recs : List IssueRec, (∀ r ∈ recs, r.is_pull_request = false) →
      format_pulls_data recs = []) ∧
    (∀ recs : List IssueRec, recs.filter (·.is_pull_request) ≠ [] →
      ((format_pulls_data recs).map Prod.snd).sum =
        (recs.filter (·.is_pull_request)).length) := by
  refine ⟨fun it => rfl, fun k1 k2 ws => rfl, ⟨rfl, rfl⟩, ?_, ?_⟩
  · intro recs hflags
    have hfilter : recs.filter (·.is_pull_request) = [] := by
      rw [List.filter_eq_nil_iff]
      intro r hr
      simp [hflags r hr]
    unfold format_pulls_data
    by_cases he : recs.isEmpty
    · rw [if_pos he]
    · rw [if_neg he, hfilter]
      rfl
  · intro recs hne
    match hf : recs.filter (·.is_pull_request), hne with
    | [], h => exact absurd hf h
    | r :: rs, _ =>
      have hrecs : recs.isEmpty = false := by
        cases recs with
        | nil => simp at hf
        | cons a l => rfl
      have hproj : ((r :: rs).map (·.created_at)).map monthIdx =
          monthIdx r.created_at :: rs.map (fun x => monthIdx x.created_at) := by
        simp
      have hfmt : format_pulls_data recs =
          aggregateMonths ((r :: rs).map (·.created_at)) := by
        unfold format_pulls_data
        rw [if_neg (by rw [hrecs]; exact Bool.false_ne_true), hf]
        rfl
      rw [hfmt, aggregateMonths_sum _ _ _ hproj]
      simp [hf]

/-- Witness for C8: the all-flags-false clause applies to one concrete
non-PR record. -/
theorem is_pull_request_from_marker_witness :
    (∀ r ∈ [exampleNonPullRec], r.is_pull_request = false) ∧
    format_pulls_data [exampleNonPullRec] = [] :=
  ⟨by decide,
   is_pull_request_from_marker.2.2.2.1 _ (by decide)⟩

theorem cursorLoop_errors_stops {ν ρ : Type} (proc : List ν → List ρ × Bool)
    (ps : List (CursorResp ν)) (rest rest' : List (CursorResp ν)) :
    cursorLoop proc (ps ++ CursorResp.errors :: rest) =
      cursorLoop proc (ps ++ CursorResp.errors :: rest') := by
  induction ps with
  | nil => rfl
  | cons p ps ih =>
    cases p with
    | errors => rfl
    | page nodes hn c =>
      simp only [List.cons_append, cursorLoop, List.append_eq]
      rw [ih]

/-- Claim C5. In the cursor-paginated fetchers, a response with
`hasNextPage = false` terminates the loop (no later response is consulted),
a page with zero nodes terminates it, and a response with top-level `errors`
terminates it — all without raising (the loop functions are total) — and the
records accumulated from the pages processed before the stopping point are
returned, not discarded: a full error-free page followed by an `errors`
response still yields that page's records, in both the commits and the
branches loop. -/
theorem cursor_pagination_stops_preserving :
    (∀ (ν ρ : Type) (proc : List ν → List ρ × Bool) nodes c rest rest',
      cursorLoop proc (CursorResp.page nodes false c :: rest) =
        cursorLoop proc (CursorResp.page nodes false c :: rest')) ∧
    (∀ (ν ρ : Type) (proc : List ν → List ρ × Bool) hn c rest,
      cursorLoop proc (CursorResp.page [] hn c :: rest) = []) ∧
    (∀ (ν ρ : Type) (proc : List ν → List ρ × Bool)
        (ps rest rest' : List (CursorResp ν)),
      cursorLoop proc (ps ++ CursorResp.errors :: rest) =
        cursorLoop proc (ps ++ CursorResp.errors :: rest')) ∧
    (∀ nodes c rest, (procCommitNodes nodes).2 = false → nodes.length = 100 →
      fetch_commits_pages
          (CursorResp.page nodes true c :: CursorResp.errors :: rest) =
        (procCommitNodes nodes).1) ∧
    (∀ nodes c rest, (procBranchNodes nodes).2 = false → nodes.length = 100 →
      fetch_branches_pages
          (CursorResp.page nodes true c :: CursorResp.errors :: rest) =
        (procBranchNodes nodes).1) := by
  refine ⟨?_, ?_, ?_, ?_, ?_⟩
  · intro ν ρ proc nodes c rest rest'
    simp [cursorLoop]
  · intro ν ρ proc hn c rest
    simp [cursorLoop]
  · intro ν ρ proc ps rest rest'
    exact cursorLoop_errors_stops proc ps rest rest'
  · intro nodes c rest he hl
    show cursorLoop procCommitNodes _ = _
    simp [cursorLoop, he, hl]
  · intro nodes c rest he hl
    show cursorLoop procBranchNodes _ = _
    simp [cursorLoop, he, hl]

/-- Witness for C5: a concrete full error-free page of 100 commit nodes
followed by an `errors` response; its records are returned. -/
theorem cursor_pagination_stops_preserving_witness :
    (procCommitNodes
      (List.replicate 100 (CommitNodeOrBad.ok exampleCommitNode))).2 = false ∧
    (List.replicate 100 (CommitNodeOrBad.ok exampleCommitNode)).length = 100 ∧
    fetch_commits_pages
        (CursorResp.page (List.replicate 100 (CommitNodeOrBad.ok exampleCommitNode))
            true none :: CursorResp.errors :: []) =
      (procCommitNodes
        (List.replicate 100 (CommitNodeOrBad.ok exampleCommitNode))).1 :=
  ⟨rfl, rfl,
   cursor_pagination_stops_preserving.2.2.2.1 _ none [] rfl rfl⟩

/-- Claim C7. The monthly aggregation never reaches pandas' `min()`/`max()` on
an empty set of months: the empty input short-circuits to `([], [])`; when
every record's `closed_at` is absent, the closed series short-circuits to
`[]`; and records with an absent `closed_at` are excluded from the
closed-series projection entirely (never bucketed as a null month) — the
closed-series counts sum to exactly the number of records with a defined
`closed_at`. -/
theorem closed_series_no_empty_minmax :
    format_github_data [] = ([], []) ∧
    (∀ recs : List IssueRec, (∀ r ∈ recs, r.closed_at = none) →
      (format_github_data recs).2 = []) ∧
    (∀ recs : List IssueRec, recs.filterMap (·.closed_at) ≠ [] →
      ((format_github_data recs).2.map Prod.snd).sum =
        (recs.filterMap (·.closed_at)).length) := by
  refine ⟨rfl, ?_, ?_⟩
  · intro recs h
    have hnil : recs.filterMap (·.closed_at) = [] := by
      rw [List.filterMap_eq_nil_iff]
      exact h
    unfold format_github_data
    by_cases he : recs.isEmpty
    · rw [if_pos he]
    · rw [if_neg he]
      simp [hnil]
  · intro recs hne
    match hf : recs.filterMap (·.closed_at), hne with
    | [], h => exact absurd hf h
    | d :: ds, _ =>
      have hrecs : recs.isEmpty = false := by
        cases recs with
        | nil => simp at hf
        | cons a l => rfl
      have h2 : (format_github_data recs).2 = aggregateMonths (d :: ds) := by
        unfold format_github_data
        rw [if_neg (by rw [hrecs]; exact Bool.false_ne_true)]
        simp only [hf]
        rw [if_pos (by simp)]
      rw [h2, aggregateMonths_sum _ (monthIdx d) (ds.map monthIdx) (by simp), hf]

/-- Witness for C7: one concrete record whose `closed_at` is absent; the
all-absent clause of the theorem applies and the closed series is empty. -/
theorem closed_series_no_empty_minmax_witness :
    (∀ r ∈ [exampleNonPullRec], r.closed_at = none) ∧
    (format_github_data [exampleNonPullRec]).2 = [] :=
  ⟨by decide, closed_series_no_empty_minmax.2.1 _ (by decide)⟩

/-- Counterexample to C6 as stated: for the `issues` entity kind, a network
failure of the downstream forecast call is *not* recovered by substituting
the empty-URL placeholder — the handler propagates the failure and returns
no JSON response at all (instead of the claimed placeholder-bearing
response). -/
theorem forecast_placeholder_counterexample :
    githubHandler "issues" exampleEnvNetFail = Except.error () := rfl

/-- Claim C6, amended. Forecast-failure recovery is per-kind, not uniform:
for the pulls, commits, and contributors kinds the fixed empty-URL
placeholder is substituted exactly when the post raises or the body is not
JSON — a non-success response whose body decodes as JSON is passed through
unchanged; for the branches kind the placeholder is additionally substituted
on any non-200 status; for the issues kind there is no recovery and the
failure propagates to the caller; whenever the call succeeds the downstream
body is passed through unchanged; and for the four recovering kinds the
handler still returns the rest of the response. -/
theorem forecast_placeholder_per_kind :
    (∀ s m, forecastTryJson (ForecastOutcome.resp s (some m)) = m) ∧
    (∀ s, forecastTryJson (ForecastOutcome.resp s none) = placeholderUrls) ∧
    forecastTryJson ForecastOutcome.netFail = placeholderUrls ∧
    (∀ m, forecastBranches (ForecastOutcome.resp 200 (some m)) = m) ∧
    (∀ s m, s ≠ 200 →
      forecastBranches (ForecastOutcome.resp s m) = placeholderUrls) ∧
    forecastBranches ForecastOutcome.netFail = placeholderUrls ∧
    (∀ s m, forecastNoRecover (ForecastOutcome.resp s (some m)) = Except.ok m) ∧
    forecastNoRecover ForecastOutcome.netFail = Except.error () ∧
    (∀ s, forecastNoRecover (ForecastOutcome.resp s none) = Except.error ()) ∧
    (∀ env dt, dt = "pulls" ∨ dt = "commits" ∨ dt = "branches" ∨
        dt = "contributors" →
      ∃ r, githubHandler dt env = Except.ok r) := by
  refine ⟨fun s m => rfl, fun s => rfl, rfl, fun m => by simp [forecastBranches],
    ?_, rfl, fun s m => rfl, rfl, fun s => rfl, ?_⟩
  · intro s m hs
    cases m with
    | none => rfl
    | some u => simp [forecastBranches, hs]
  · intro env dt hdt
    rcases hdt with rfl | rfl | rfl | rfl <;> exact ⟨_, rfl⟩

/-- Witness for the amended C6: concretely, a 500 response with a JSON body
on the branches kind is replaced by the placeholder, and the commits kind
still returns a response when its forecast post raises. -/
theorem forecast_placeholder_per_kind_witness :
    ((500 : Nat) ≠ 200) ∧
    forecastBranches (ForecastOutcome.resp 500 (some [("u", "v")])) =
      placeholderUrls ∧
    ("commits" = "pulls" ∨ "commits" = "commits" ∨ "commits" = "branches" ∨
      "commits" = "contributors") ∧
    ∃ r, githubHandler "commits" exampleEnvNetFail = Except.ok r :=
  ⟨by decide,
   forecast_placeholder_per_kind.2.2.2.2.1 500 (some [("u", "v")]) (by decide),
   by decide,
   forecast_placeholder_per_kind.2.2.2.2.2.2.2.2.2 exampleEnvNetFail
     "commits" (Or.inr (Or.inl rfl))⟩

/-- Claim C10. Every JSON response the handler returns is the fourteen-key
`GithubResponse` record with `starCount`/`forkCount` from the repository
metadata; requesting one `data_type` leaves every other entity kind's series
field at its initialized `[]` and every other kind's image-URL field at its
initialized empty dict; and an unrecognized `data_type` returns with all six
series empty and all six image-URL dicts empty. -/
theorem response_frame :
    (∀ env r, githubHandler "issues" env = Except.ok r →
      r.pulls = [] ∧ r.commits = [] ∧ r.branches = [] ∧ r.contributors = [] ∧
      r.pullsImageUrls = [] ∧ r.commitsImageUrls = [] ∧
      r.branchesImageUrls = [] ∧ r.contributorsImageUrls = [] ∧
      r.starCount = env.starCount ∧ r.forkCount = env.forkCount) ∧
    (∀ env r, githubHandler "pulls" env = Except.ok r →
      r.created = [] ∧ r.closed = [] ∧ r.commits = [] ∧ r.branches = [] ∧
      r.contributors = [] ∧ r.createdAtImageUrls = [] ∧
      r.closedAtImageUrls = [] ∧ r.commitsImageUrls = [] ∧
      r.branchesImageUrls = [] ∧ r.contributorsImageUrls = [] ∧
      r.starCount = env.starCount ∧ r.forkCount = env.forkCount) ∧
    (∀ env r, githubHandler "commits" env = Except.ok r →
      r.created = [] ∧ r.closed = [] ∧ r.pulls = [] ∧ r.branches = [] ∧
      r.contributors = [] ∧ r.createdAtImageUrls = [] ∧
      r.closedAtImageUrls = [] ∧ r.pullsImageUrls = [] ∧
      r.branchesImageUrls = [] ∧ r.contributorsImageUrls = [] ∧
      r.starCount = env.starCount ∧ r.forkCount = env.forkCount) ∧
    (∀ env r, githubHandler "branches" env = Except.ok r →
      r.created = [] ∧ r.closed = [] ∧ r.pulls = [] ∧ r.commits = [] ∧
      r.contributors = [] ∧ r.createdAtImageUrls = [] ∧
      r.closedAtImageUrls = [] ∧ r.pullsImageUrls = [] ∧
      r.commitsImageUrls = [] ∧ r.contributorsImageUrls = [] ∧
      r.starCount = env.starCount ∧ r.forkCount = env.forkCount) ∧
    (∀ env r, githubHandler "contributors" env = Except.ok r →
      r.created = [] ∧ r.closed = [] ∧ r.pulls = [] ∧ r.commits = [] ∧
      r.branches = [] ∧ r.createdAtImageUrls = [] ∧
      r.closedAtImageUrls = [] ∧ r.pullsImageUrls = [] ∧
      r.commitsImageUrls = [] ∧ r.branchesImageUrls = [] ∧
      r.starCount = env.starCount ∧ r.forkCount = env.forkCount) ∧
    (∀ dt env r, dt ≠ "issues" → dt ≠ "pulls" → dt ≠ "commits" →
      dt ≠ "branches" → dt ≠ "contributors" →
      githubHandler dt env = Except.ok r →
      r.created = [] ∧ r.closed = [] ∧ r.pulls = [] ∧ r.commits = [] ∧
      r.branches = [] ∧ r.contributors = [] ∧ r.createdAtImageUrls = [] ∧
      r.closedAtImageUrls = [] ∧ r.pullsImageUrls = [] ∧
      r.commitsImageUrls = [] ∧ r.branchesImageUrls = [] ∧
      r.contributorsImageUrls = [] ∧
      r.starCount = env.starCount ∧ r.forkCount = env.forkCount) := by
  refine ⟨?_, ?_, ?_, ?_, ?_, ?_⟩
  · intro env r h
    simp only [githubHandler, if_pos rfl] at h
    cases h1 : forecastNoRecover env.createdForecast with
    | error e => rw [h1] at h; cases h
    | ok cm =>
      cases h2 : forecastNoRecover env.closedForecast with
      | error e => rw [h1, h2] at h; cases h
      | ok clm =>
        rw [h1, h2] at h
        obtain rfl := (Except.ok.inj h).symm
        exact ⟨rfl, rfl, rfl, rfl, rfl, rfl, rfl, rfl, rfl, rfl⟩
  · intro env r h
    simp only [githubHandler] at h
    rw [if_pos trivial] at h
    obtain rfl := (Except.ok.inj h).symm
    exact ⟨rfl, rfl, rfl, rfl, rfl, rfl, rfl, rfl, rfl, rfl, rfl, rfl⟩
  · intro env r h
    simp only [githubHandler] at h
    rw [if_pos trivial] at h
    obtain rfl := (Except.ok.inj h).symm
    exact ⟨rfl, rfl, rfl, rfl, rfl, rfl, rfl, rfl, rfl, rfl, rfl, rfl⟩
  · intro env r h
    simp only [githubHandler] at h
    rw [if_pos trivial] at h
    obtain rfl := (Except.ok.inj h).symm
    exact ⟨rfl, rfl, rfl, rfl, rfl, rfl, rfl, rfl, rfl, rfl, rfl, rfl⟩
  · intro env r h
    simp only [githubHandler] at h
    rw [if_pos trivial] at h
    obtain rfl := (Except.ok.inj h).symm
    exact ⟨rfl, rfl, rfl, rfl, rfl, rfl, rfl, rfl, rfl, rfl, rfl, rfl⟩
  · intro dt env r h1 h2 h3 h4 h5 h
    simp only [githubHandler] at h
    rw [if_neg h1, if_neg h2, if_neg h3, if_neg h4, if_neg h5] at h
    obtain rfl := (Except.ok.inj h).symm
    exact ⟨rfl, rfl, rfl, rfl, rfl, rfl, rfl, rfl, rfl, rfl, rfl, rfl, rfl, rfl⟩

/-- Witness for C10: the commits clause applied to a concrete request whose
concrete response is computed; its unrequested series stay `[]`. -/
theorem response_frame_witness :
    githubHandler "commits" exampleEnvNetFail =
      Except.ok exampleCommitsResponse ∧
    exampleCommitsResponse.created = [] ∧ exampleCommitsResponse.pulls = [] :=
  ⟨rfl,
   (response_frame.2.2.1 exampleEnvNetFail exampleCommitsResponse rfl).1,
   (response_frame.2.2.1 exampleEnvNetFail exampleCommitsResponse rfl).2.2.1⟩

end SPM5
